import Mathlib

/-!
Verification development for the RPPS meeting-minutes collector
(`src/core/discovery.py`, `src/core/downloader.py` and collaborators).

The Python source is shallowly embedded: pure helpers become Lean
functions over `String` / `List`; network and filesystem effects become
explicit oracle parameters (`http : String → Option DlResponse`,
`resolve : String → Option String`, `writeOk : String → Bool`); the
thread-pool download engine is modelled twice — as a fold over the
link list for the claims that are robust to worker interleaving, and
as an explicit interleaving semantics of the workers' atomic steps
where the shared-state race matters — and per-host request concurrency
is modelled by an explicit event-trace semantics.  Foreign-library primitives (BeautifulSoup parsing, SHA-1,
`urllib` helpers) are modelled by structured inputs, by a hash-function
parameter, and by executable string functions that agree with the
Python behaviour on the inputs used here.
-/

namespace RPPS

/-! ## Generic string helpers (modelling Python `in`, `endswith`, `%`-decoding) -/

/-- Python `needle in hay` on strings: substring containment. -/
def substr (needle hay : String) : Bool :=
  hay.data.tails.any (fun t => needle.data.isPrefixOf t)

/-- Python `hay.endswith suffix`. -/
def strEndsWith (s suffix : String) : Bool :=
  suffix.data.isSuffixOf s.data

/-- Python `hay.startswith pre`. -/
def strStartsWith (s pre : String) : Bool :=
  pre.data.isPrefixOf s.data

/-- ASCII lower-casing (`str.lower` on the ASCII range). -/
def strToLower (s : String) : String := String.mk (s.data.map Char.toLower)

/-- `str.strip()`. -/
def strTrim (s : String) : String :=
  String.mk (((s.data.dropWhile Char.isWhitespace).reverse.dropWhile Char.isWhitespace).reverse)

def strTake (s : String) (n : Nat) : String := String.mk (s.data.take n)

def strDrop (s : String) (n : Nat) : String := String.mk (s.data.drop n)

def splitCharAux (sep : Char) : List Char → List Char → List String
  | [], acc => [String.mk acc.reverse]
  | c :: rest, acc =>
    if c = sep then String.mk acc.reverse :: splitCharAux sep rest []
    else splitCharAux sep rest (c :: acc)

/-- Python `s.split(sep)` for a one-character separator. -/
def splitOnChar (sep : Char) (s : String) : List String :=
  splitCharAux sep s.data []

def splitPredAux (p : Char → Bool) : List Char → List Char → List String
  | [], acc => [String.mk acc.reverse]
  | c :: rest, acc =>
    if p c then String.mk acc.reverse :: splitPredAux p rest []
    else splitPredAux p rest (c :: acc)

/-- Split at every character satisfying `p` (used for `re.split`-like
whitespace splitting). -/
def splitPred (p : Char → Bool) (s : String) : List String :=
  splitPredAux p s.data []

/-- `sep.join(parts)`. -/
def joinSep (sep : String) : List String → String
  | [] => ""
  | [x] => x
  | x :: rest => x ++ sep ++ joinSep sep rest

/-- Left-to-right non-overlapping replacement of every occurrence of
`needle` (Python `s.replace(needle, repl)`), fueled to keep the
recursion structural. -/
def replaceFuel (needle repl : List Char) : Nat → List Char → List Char
  | 0, l => l
  | _ + 1, [] => []
  | fuel + 1, c :: rest =>
    if needle ≠ [] ∧ needle.isPrefixOf (c :: rest) then
      repl ++ replaceFuel needle repl fuel ((c :: rest).drop needle.length)
    else c :: replaceFuel needle repl fuel rest

def replaceSub (s needle repl : String) : String :=
  String.mk (replaceFuel needle.data repl.data s.data.length s.data)

/-- Last element of `s.split(sep)` (Python `s.split(sep)[-1]`). -/
def lastSplit (sep : Char) (s : String) : String :=
  (splitOnChar sep s).getLastD ""

def hexVal (c : Char) : Option Nat :=
  if '0' ≤ c ∧ c ≤ '9' then some (c.toNat - '0'.toNat)
  else if 'a' ≤ c ∧ c ≤ 'f' then some (c.toNat - 'a'.toNat + 10)
  else if 'A' ≤ c ∧ c ≤ 'F' then some (c.toNat - 'A'.toNat + 10)
  else none

/-- `urllib.parse.unquote` on the ASCII fragment used by the code:
`%XX` escapes are decoded, invalid escapes are kept verbatim. -/
def unquoteChars : List Char → List Char
  | '%' :: a :: b :: rest =>
    match hexVal a, hexVal b with
    | some x, some y => Char.ofNat (16 * x + y) :: unquoteChars rest
    | _, _ => '%' :: unquoteChars (a :: b :: rest)
  | c :: rest => c :: unquoteChars rest
  | [] => []

def unquote (s : String) : String := String.mk (unquoteChars s.data)

/-- One step of `unicodedata.normalize("NFKD", ·)` followed by
`encode("ASCII","ignore")`: ASCII characters are kept, Latin accented
letters decompose to their base letter, other characters vanish. -/
def foldAccentChar (c : Char) : List Char :=
  if c.toNat < 128 then [c] else
  match c with
  | 'á' | 'à' | 'â' | 'ã' | 'ä' => ['a']
  | 'Á' | 'À' | 'Â' | 'Ã' | 'Ä' => ['A']
  | 'é' | 'è' | 'ê' | 'ë' => ['e']
  | 'É' | 'È' | 'Ê' | 'Ë' => ['E']
  | 'í' | 'ì' | 'î' | 'ï' => ['i']
  | 'Í' | 'Ì' | 'Î' | 'Ï' => ['I']
  | 'ó' | 'ò' | 'ô' | 'õ' | 'ö' => ['o']
  | 'Ó' | 'Ò' | 'Ô' | 'Õ' | 'Ö' => ['O']
  | 'ú' | 'ù' | 'û' | 'ü' => ['u']
  | 'Ú' | 'Ù' | 'Û' | 'Ü' => ['U']
  | 'ç' => ['c']
  | 'Ç' => ['C']
  | 'ñ' => ['n']
  | 'Ñ' => ['N']
  | _ => []

/-- `downloader.normalize_text`: NFKD-fold to ASCII, lower-case,
dashes to spaces, collapse whitespace runs and strip the ends. -/
def normalize_text (s : String) : String :=
  let ascii := String.mk (s.data.flatMap foldAccentChar)
  let lowered := strToLower ascii
  let dashed := String.mk (lowered.data.map (fun c => if c = '-' then ' ' else c))
  joinSep " " ((splitPred Char.isWhitespace dashed).filter (fun p => p ≠ ""))

/-- `downloader.FILENAME_BLACKLIST`. -/
def FILENAME_BLACKLIST : List String :=
  ["balanc", "demonstr", "extrato", "relatorio", "gestao", "contas", "financeiro", "orcament",
   "portaria", "resolucao", "resolucoes", "estatuto", "regimento", "normativo", "normativos",
   "membro-", "membros", "composicao", "certificado", "certificacao", "certificado-", "credenciamento",
   "lei", "decreto", "norma", "normas", "legislacao", "instrucao",
   "boletim", "informativo", "cartilha", "manual", "tutorial", "guia", "orientacao", "folder",
   "cronograma", "calendario", "recadastramento", "cadastro", "prova-de-vida",
   "planejamento", "informe", "censo", "organograma", "fluxograma",
   "formulario", "requerimento", "solicitacao", "declaracao",
   "termo", "convenio", "contrato", "licitacao", "edital", "concurso", "adesao",
   "noticia", "noticias", "evento", "publicacao", "revista",
   "gabarito", "resultado", "classificacao", "convocacao",
   "estudo", "atuarial", "governanca"]

/-- `downloader.is_probably_meeting_document`: the reject-keyword
filter applied to filenames and anchor text. -/
def is_probably_meeting_document (text_to_check : String) : Bool :=
  FILENAME_BLACKLIST.all (fun term => ¬ substr term (normalize_text text_to_check))

/-- `discovery.BLACKLIST`: topical URL blacklist. -/
def BLACKLIST : List String :=
  ["diariomunicipal", "diario-oficial", "licitacao", "licitacoes", "edital",
   "concurso", "legislacao", "legislação", "noticia", "noticias"]

/-- `discovery.blacklisted`. -/
def blacklisted (url : String) : Bool :=
  BLACKLIST.any (fun b => substr b (strToLower url))

/-- `discovery.FILE_EXTS`. -/
def FILE_EXTS : List String := [".pdf", ".doc", ".docx", ".xls", ".xlsx"]

/-- `discovery.looks_like_file`. -/
def looks_like_file (url : String) : Bool :=
  FILE_EXTS.any (fun ext => strEndsWith (strToLower url) ext)

/-- `discovery.is_download_page`. -/
def is_download_page (url : String) : Bool :=
  let u := strToLower url
  substr "/download" u || lastSplit '/' u = "download" || strEndsWith u "/download/"

/-! ## URL helpers (`urllib.parse.urlparse` / `urljoin` on the shapes used) -/

/-- Does the URL carry an explicit http(s) scheme? -/
def hasScheme (u : String) : Bool :=
  strStartsWith u "http://" || strStartsWith u "https://"

/-- Split off the part after the scheme marker, if any. -/
def afterScheme (u : String) : String :=
  if strStartsWith u "http://" then strDrop u 7
  else if strStartsWith u "https://" then strDrop u 8
  else u

def schemeMarker (u : String) : String :=
  if strStartsWith u "http://" then "http://"
  else if strStartsWith u "https://" then "https://"
  else ""

/-- `urlparse(u).netloc` (also `discovery.domain_of`, `downloader.get_domain`):
empty for scheme-less (relative) URLs. -/
def domain_of (u : String) : String :=
  if hasScheme u then
    String.mk ((afterScheme u).data.takeWhile (fun c => c ≠ '/' ∧ c ≠ '?' ∧ c ≠ '#'))
  else ""

/-- `urlparse(u).path`. -/
def path_of (u : String) : String :=
  if hasScheme u then
    String.mk (((afterScheme u).data.dropWhile (fun c => c ≠ '/' ∧ c ≠ '?' ∧ c ≠ '#')).takeWhile
      (fun c => c ≠ '?' ∧ c ≠ '#'))
  else
    String.mk (u.data.takeWhile (fun c => c ≠ '?' ∧ c ≠ '#'))

/-- `urlparse(u).query`. -/
def query_of (u : String) : String :=
  let afterQ := u.data.dropWhile (fun c => c ≠ '?')
  match afterQ with
  | [] => ""
  | _ :: rest => String.mk (rest.takeWhile (fun c => c ≠ '#'))

/-- Scheme plus authority of an absolute URL (`https://host`). -/
def schemeAndHost (u : String) : String :=
  schemeMarker u ++ domain_of u

/-- The URL with query and fragment removed. -/
def stripQuery (u : String) : String :=
  String.mk (u.data.takeWhile (fun c => c ≠ '?' ∧ c ≠ '#'))

/-- Base URL up to and including the last `/` of its path (query dropped),
the prefix against which a relative reference is resolved. -/
def dirBaseOf (u : String) : String :=
  let s := stripQuery u
  if hasScheme s then
    let rest := (afterScheme s).data
    if rest.contains '/' then
      String.mk (s.data.reverse.dropWhile (fun c => c ≠ '/')).reverse
    else s ++ "/"
  else
    if s.data.contains '/' then
      String.mk (s.data.reverse.dropWhile (fun c => c ≠ '/')).reverse
    else ""

/-- `urllib.parse.urljoin` restricted to the reference shapes the crawler
produces: absolute references, protocol-relative, root-relative,
query-only and plain relative references (no `..` normalisation). -/
def urljoin (base href : String) : String :=
  if href = "" then base
  else if hasScheme href then href
  else if strStartsWith href "//" then
    (if strStartsWith base "https://" then "https:" else "http:") ++ href
  else if strStartsWith href "/" then
    if hasScheme base then schemeAndHost base ++ href else href
  else if strStartsWith href "?" then stripQuery base ++ href
  else dirBaseOf base ++ href

/-! ## Relevance scorer (`discovery.element_text_score`) -/

/-- `discovery.HEUR_KEYWORDS`. -/
def HEUR_KEYWORDS : List String :=
  ["ata", "atas", "atareuni", "ata de", "ata da", "ata do",
   "reuni", "reunião", "reuniao", "comit", "consel", "invest", "investimento",
   "comite de investimento", "atas do comite",
   "publicac", "publica", "document", "documentos", "reunioes", "transpar"]

def isWordChar (c : Char) : Bool := c.isAlphanum || c = '_'

/-- Scan for the regex `\b(19|20)\d{2}\b`. -/
def yearScan : Option Char → List Char → Bool
  | _, [] => false
  | prev, c1 :: rest =>
    (match rest with
     | c2 :: c3 :: c4 :: rest' =>
       (prev.all (fun p => ¬ isWordChar p))
         ∧ ((c1 = '1' ∧ c2 = '9') ∨ (c1 = '2' ∧ c2 = '0'))
         ∧ c3.isDigit ∧ c4.isDigit
         ∧ (rest'.head?.all (fun n => ¬ isWordChar n))
     | _ => False)
    || yearScan (some c1) rest

/-- `re.search(r"\b(19|20)\d{2}\b", s)` as a Bool. -/
def hasYearPattern (s : String) : Bool := yearScan none s.data

def SCORE_MONTHS : List String :=
  ["jane", "fev", "mar", "abr", "mai", "jun", "jul", "ago", "set", "out", "nov", "dez",
   "january", "feb", "march", "april", "may", "aug", "sep", "oct", "dec"]

/-- `discovery.element_text_score`: cumulative keyword/pattern scoring of
an (anchor text, href) pair. -/
def element_text_score (text href : String) : Int :=
  let t := strToLower text
  let h := strToLower href
  let score : Int := 0
  let score := score + (HEUR_KEYWORDS.foldl (fun acc k =>
    acc + (if substr k t then (5 : Int) else 0) + (if substr k h then (4 : Int) else 0)) 0)
  let score := score +
    (if ["publica", "public", "document", "docs", "arquivo"].any (fun x => substr x h) then 2 else 0)
  let score := score + (if blacklisted h then -50 else 0)
  let score := score + (if hasYearPattern t then 8 else 0)
  let score := score + (if hasYearPattern h then 8 else 0)
  let score := score + (if SCORE_MONTHS.any (fun m => substr m t) then 4 else 0)
  let score := score + (if SCORE_MONTHS.any (fun m => substr m h) then 4 else 0)
  let score := score + (if is_download_page h then 6 else 0)
  let full_text := t ++ " " ++ h
  let score := score +
    (if substr "ata" full_text ∧ substr "comite" full_text ∧ substr "invest" full_text then 150
     else if substr "comite" full_text ∧ substr "invest" full_text then 120
     else if substr "ata" full_text ∧ (substr "comite" full_text ∨ substr "conselho" full_text) then 80
     else if substr "ata" full_text then 50
     else 0)
  score

/-! ## Extraction (`discovery.extract_pdfs_and_file_links_from_html`)

BeautifulSoup parsing is a foreign library; a parsed page is therefore
modelled as structured data: its anchors `(href, text)`, the `src`/`data`
attributes of its iframe/embed/object tags, and the matches of the
literal-document-URL regex `https?://[^"\x27<>\s]+\.(?:pdf|docx?|xlsx?)`
over the raw HTML text.  `resolve_redirect_to_file` performs network
requests and is passed in as an oracle `resolve`. -/

structure Anchor where
  href : String
  text : String
deriving DecidableEq, Repr

structure Html where
  anchors : List Anchor
  embeds : List String
  inlineDocUrls : List String
deriving DecidableEq, Repr

/-- Order-preserving string dedup (the `seen`/`out` loops of the source). -/
def dedupe (l : List String) : List String :=
  l.foldl (fun acc u => if acc.contains u then acc else acc ++ [u]) []

/-- Filename of a resolved file URL as the source derives it:
`unquote(urlparse(final_url).path.split('/')[-1])`. -/
def decoded_file_name (final_url : String) : String :=
  unquote (lastSplit '/' (path_of final_url))

/-- The body of the anchor loop of `extract_pdfs_and_file_links_from_html`
for one anchor (`abs_url`/`text` inlined). -/
def anchorEmit (resolve : String → Option String) (base_url : String) (a : Anchor) :
    List String :=
  if blacklisted (urljoin base_url (strTrim a.href)) then []
  else if ¬ is_probably_meeting_document (strToLower (strTrim a.text)) then []
  else if looks_like_file (urljoin base_url (strTrim a.href))
      || substr "download" (strToLower (strTrim a.text))
      || substr "baixar" (strToLower (strTrim a.text))
      || substr "ata nº" (strToLower (strTrim a.text)) then
    match resolve (urljoin base_url (strTrim a.href)) with
    | some final_url =>
      if is_probably_meeting_document (decoded_file_name final_url) then [final_url] else []
    | none => []
  else []

/-- The anchor loop of `extract_pdfs_and_file_links_from_html`. -/
def anchorPass (resolve : String → Option String) (base_url : String)
    (anchors : List Anchor) : List String :=
  anchors.flatMap (anchorEmit resolve base_url)

/-- The body of the iframe/embed/object loop of
`extract_pdfs_and_file_links_from_html` for one `src`. -/
def embedEmit (resolve : String → Option String) (base_url : String) (src : String) :
    List String :=
  if ¬ blacklisted (urljoin base_url src) ∧ looks_like_file (urljoin base_url src) then
    match resolve (urljoin base_url src) with
    | some final_url =>
      if is_probably_meeting_document (decoded_file_name final_url) then [final_url] else []
    | none => []
  else []

/-- The iframe/embed/object loop of `extract_pdfs_and_file_links_from_html`. -/
def embedPass (resolve : String → Option String) (base_url : String)
    (embeds : List String) : List String :=
  embeds.flatMap (embedEmit resolve base_url)

/-- The literal-URL regex loop of `extract_pdfs_and_file_links_from_html`:
note that unlike the two loops above it applies no reject-list filter. -/
def inlinePass (resolve : String → Option String) (inlineDocUrls : List String) : List String :=
  inlineDocUrls.flatMap (fun p =>
    if ¬ blacklisted p then (resolve p).toList else [])

/-- `discovery.extract_pdfs_and_file_links_from_html`. -/
def extract_pdfs_and_file_links_from_html (resolve : String → Option String)
    (base_url : String) (page : Html) : List String :=
  dedupe (anchorPass resolve base_url page.anchors
    ++ embedPass resolve base_url page.embeds
    ++ inlinePass resolve page.inlineDocUrls)

/-! ## Internal-link ranking (`discovery.rank_internal_links_by_score`) -/

def BOOST_NAV : List String :=
  ["institucional", "publica", "document", "portal", "menu", "institut", "conselho", "comit", "conselhos"]

/-- Stable descending insertion by score (`sorted(..., reverse=True)`). -/
def insertDesc (x : Int × String) : List (Int × String) → List (Int × String)
  | [] => [x]
  | y :: ys => if x.1 ≤ y.1 then y :: insertDesc x ys else x :: y :: ys

def sortByScoreDesc (l : List (Int × String)) : List (Int × String) :=
  l.foldl (fun acc x => insertDesc x acc) []

/-- `discovery.rank_internal_links_by_score`: filter raw links to the
allowed domains `{base_domain, extra_allowed_domain}`, drop blacklisted
and file-shaped URLs, score, sort descending, keep scores above 10,
cap at 40. -/
def rank_internal_links_by_score (base_domain : String)
    (raw_links : List (String × String)) (extra_allowed_domain : Option String) : List String :=
  let scored := raw_links.filterMap (fun l =>
    let abs_url := l.1
    let text := l.2
    if ¬ (domain_of abs_url = base_domain ∨ extra_allowed_domain = some (domain_of abs_url)) then
      none
    else if blacklisted abs_url then none
    else if looks_like_file abs_url then none
    else
      let score := element_text_score text abs_url
      let score := if BOOST_NAV.any (fun x => substr x (strToLower abs_url)) then score + 15 else score
      some (score, abs_url))
  let scored_sorted := sortByScoreDesc scored
  (((scored_sorted.filter (fun p => 10 < p.1)).map (fun p => p.2)).take 40)

/-! ## Detail-page detector and deferred-resolution token -/

/-- Query parameters of a URL: `k=v` pieces of the query string. -/
def queryParams (u : String) : List (String × String) :=
  (splitOnChar '&' (query_of u)).filterMap (fun kv =>
    if kv = "" then none
    else match splitOnChar '=' kv with
    | k :: rest => some (k, joinSep "=" rest)
    | [] => none)

def isNumericStr (s : String) : Bool :=
  s ≠ "" && s.data.all Char.isDigit

/-- Modelled from the spec: the detail-page detector of §4.3e is absent
from `src/core/discovery.py` (only its consumer, `download_detail_page`
in `src/core/downloader.py`, is in the sources).  Per the spec, a URL
carrying a numeric record-identifier query parameter (`id`), lacking a
category parameter, and not already extension-terminated, is emitted as
a deferred resource with that record id. -/
def detect_detail_page (url : String) : Option String :=
  match (queryParams url).find? (fun p => p.1 = "id" ∧ isNumericStr p.2) with
  | some p =>
    if (queryParams url).any (fun q => q.1 = "cat" ∨ q.1 = "categoria") then none
    else if looks_like_file url then none
    else some p.2
  | none => none

/-- The string form `detail://<absolute-page-url>|<record-id>` of the
deferred-resolution token (spec §6). -/
def detail_token (page_url record_id : String) : String :=
  "detail://" ++ page_url ++ "|" ++ record_id

/-- Modelled from the spec: the detail-page pass of the extractor
(§4.3e), applied to the page anchors and combined with the three
source-present passes of `extract_pdfs_and_file_links_from_html`. -/
def detailPass (base_url : String) (anchors : List Anchor) : List String :=
  anchors.flatMap (fun a =>
    let abs_url := urljoin base_url (strTrim a.href)
    match detect_detail_page abs_url with
    | some record_id => [detail_token abs_url record_id]
    | none => [])

/-- Modelled from the spec: full §4.3 extraction = the source-present
passes plus the missing detail-page detector, output deduplicated by
string identity. -/
def extract_resources (resolve : String → Option String) (base_url : String)
    (page : Html) : List String :=
  dedupe (anchorPass resolve base_url page.anchors
    ++ embedPass resolve base_url page.embeds
    ++ inlinePass resolve page.inlineDocUrls
    ++ detailPass base_url page.anchors)

/-- `downloader.download_detail_page` token parsing:
`raw = detail_url.replace("detail://", ""); page_url, file_id = raw.split("|", 1)`. -/
def parse_detail_token (detail_url : String) : Option (String × String) :=
  let raw := replaceSub detail_url "detail://" ""
  match splitOnChar '|' raw with
  | [_] => none
  | page_url :: rest => some (page_url, joinSep "|" rest)
  | [] => none

/-! ## Crawl loop (`discovery.crawl_site`)

The Selenium driver, the specialized year/accordion extractor and the
interactive-click extractor perform browser effects; they are modelled
by a `PageOracle` mapping each URL to the data those calls return.  The
static fetch `safe_get_text` plus parse is `staticPage` (`none` models
a fetch failure). -/

def MAX_CRAWL_DEPTH : Nat := 3
def MAX_PAGES_FROM_SITE : Nat := 300

def YEAR_PAGE_TOKENS : List String := ["atas", "reunioes", "comite-de-investimentos"]
def PROMISING_NAV_TOKENS : List String := ["institucional", "conselho", "transpar", "investimento"]

/-- `any(k in lower_current_url for k in ["atas","reunioes","comite-de-investimentos"])`. -/
def is_year_page_candidate (url : String) : Bool :=
  YEAR_PAGE_TOKENS.any (fun k => substr k (strToLower url))

/-- `any(k in lower_current_url for k in ["institucional","conselho","transpar","investimento"])`. -/
def is_promising_nav (url : String) : Bool :=
  PROMISING_NAV_TOKENS.any (fun k => substr k (strToLower url))

structure PageOracle where
  staticPage : String → Option Html
  renderedPage : String → Html
  iframeSrcs : String → List String
  yearPageFiles : String → List String
  interactiveFiles : String → List String
  resolve : String → Option String

structure CrawlState where
  queue : List (String × Nat)
  visited : List String
  foundFiles : List String
  foundPrimary : Bool
deriving Repr

structure StepTrace where
  skipped : Bool
  usedYearExtractor : Bool
  rendered : Bool
  interactive : Bool
  enqueued : List (String × Nat)
deriving Repr

def emptyTrace : StepTrace := ⟨false, false, false, false, []⟩

/-- `for f in files: if f not in all: all.append(f)`. -/
def appendNew (acc files : List String) : List String :=
  files.foldl (fun a f => if a.contains f then a else a ++ [f]) acc

/-- The iframe-selection loop of `crawl_site`: switch into the first
iframe whose `src` is truthy and same-domain or domain-less; the join
base becomes that `src`, otherwise stays `current_url`. -/
def pick_iframe (base_domain current_url : String) (srcs : List String) : String :=
  match srcs.find? (fun src => src ≠ "" ∧ (domain_of src = base_domain ∨ domain_of src = "")) with
  | some src => src
  | none => current_url

/-- `base_cand_url = urljoin(cand_url, urlparse(cand_url).path)`. -/
def base_cand_url (cand_url : String) : String :=
  urljoin cand_url (path_of cand_url)

/-- The enqueue filter of `crawl_site` applied to ranked candidates. -/
def enqueue_candidates (visited : List String) (current_depth max_depth : Nat)
    (cands : List String) : List (String × Nat) :=
  (cands.filter (fun c =>
    ¬ visited.contains c ∧ ¬ visited.contains (base_cand_url c)
      ∧ current_depth + 1 ≤ max_depth)).map (fun c => (c, current_depth + 1))

/-- Raw `(abs_url, text)` links of a parsed page, joined against `base`. -/
def rawLinks (base : String) (page : Html) : List (String × String) :=
  page.anchors.map (fun a => (urljoin base (strTrim a.href), strTrim a.text))

/-- Static extraction step 1 of `crawl_site`: files found on the page
by `extract_pdfs_and_file_links_from_html`, empty when the fetch failed. -/
def static_found (oracle : PageOracle) (url : String) : List String :=
  match oracle.staticPage url with
  | some h => extract_pdfs_and_file_links_from_html oracle.resolve url h
  | none => []

/-- The join base of the Selenium branch: `current_url_for_join`. -/
def selenium_cuj (oracle : PageOracle) (base_domain current_url : String) : String :=
  pick_iframe base_domain current_url (oracle.iframeSrcs current_url)

/-- `iframe_domain = domain_of(current_url_for_join) if current_url_for_join != current_url else None`. -/
def selenium_iframe_domain (oracle : PageOracle) (base_domain current_url : String) :
    Option String :=
  if selenium_cuj oracle base_domain current_url ≠ current_url then
    some (domain_of (selenium_cuj oracle base_domain current_url))
  else none

/-- The ranked navigation candidates of the Selenium branch. -/
def selenium_cands (oracle : PageOracle) (base_domain current_url : String) : List String :=
  rank_internal_links_by_score base_domain
    (rawLinks (selenium_cuj oracle base_domain current_url) (oracle.renderedPage current_url))
    (selenium_iframe_domain oracle base_domain current_url)

/-- The frontier entries the Selenium branch appends to the queue. -/
def selenium_enq (oracle : PageOracle) (base_domain current_url : String)
    (visited : List String) (current_depth max_depth : Nat) : List (String × Nat) :=
  enqueue_candidates visited current_depth max_depth
    (selenium_cands oracle base_domain current_url)

/-- One iteration of the `while to_visit_queue` loop of `crawl_site`
(after the loop guards), processing the head of the queue. -/
def crawl_step (driver : Bool) (oracle : PageOracle) (base_domain : String)
    (max_depth : Nat) (s : CrawlState) : CrawlState × StepTrace :=
  match s.queue with
  | [] => (s, { emptyTrace with skipped := true })
  | (current_url, current_depth) :: rest =>
    if s.visited.contains current_url then
      ({ s with queue := rest }, { emptyTrace with skipped := true })
    else
      let visited' := s.visited ++ [current_url]
      if max_depth < current_depth then
        ({ s with queue := rest, visited := visited' }, { emptyTrace with skipped := true })
      else if blacklisted current_url then
        ({ s with queue := rest, visited := visited' }, { emptyTrace with skipped := true })
      else
        let found1 := appendNew s.foundFiles (static_found oracle current_url)
        if driver ∧ is_year_page_candidate current_url then
          ({ queue := rest, visited := visited',
             foundFiles := appendNew found1 (oracle.yearPageFiles current_url),
             foundPrimary := true },
           { emptyTrace with usedYearExtractor := true })
        else if driver then
          let found2 :=
            if is_promising_nav current_url then
              appendNew found1 (oracle.interactiveFiles current_url)
            else found1
          let found3 := appendNew found2
            (extract_pdfs_and_file_links_from_html oracle.resolve
              (selenium_cuj oracle base_domain current_url)
              (oracle.renderedPage current_url))
          let enq := selenium_enq oracle base_domain current_url visited' current_depth max_depth
          ({ queue := rest ++ enq, visited := visited', foundFiles := found3,
             foundPrimary := s.foundPrimary },
           { skipped := false, usedYearExtractor := false, rendered := true,
             interactive := is_promising_nav current_url, enqueued := enq })
        else
          match oracle.staticPage current_url with
          | some h =>
            let cands := rank_internal_links_by_score base_domain (rawLinks current_url h) none
            let enq := enqueue_candidates visited' current_depth max_depth cands
            ({ queue := rest ++ enq, visited := visited', foundFiles := found1,
               foundPrimary := s.foundPrimary },
             { skipped := false, usedYearExtractor := false, rendered := false,
               interactive := false, enqueued := enq })
          | none =>
            ({ s with queue := rest, visited := visited', foundFiles := found1 },
             { emptyTrace with skipped := false })

/-- The `while` loop of `crawl_site`: guards first (`queue nonempty`,
`len(visited) < MAX_PAGES_FROM_SITE`), then the primary-target break,
then one step.  Fuel makes the recursion structural. -/
def crawl_loop (driver : Bool) (oracle : PageOracle) (base_domain : String)
    (max_depth max_pages : Nat) : Nat → CrawlState → CrawlState
  | 0, s => s
  | fuel + 1, s =>
    if s.queue.isEmpty ∨ max_pages ≤ s.visited.length then s
    else if s.foundPrimary then s
    else crawl_loop driver oracle base_domain max_depth max_pages fuel
      (crawl_step driver oracle base_domain max_depth s).1

/-! ## Parallel download engine (`downloader.download_files_parallel`)

`hashlib.sha1` is a foreign primitive: it is modelled as a parameter
`hashFn`.  The filesystem is modelled by the run's written files (an
association list name ↦ content) plus a `writeOk` oracle deciding
whether a `write_bytes`/`open(..., "wb")` call succeeds.  `requests.get`
is an oracle `http`.  The pool is modelled at two granularities: the
fold `dl_run_go` runs each worker to completion in submission order —
adequate only for properties that are robust to worker interleaving
(the persisted index only ever grows, and per-call behaviour is
local) — while `racy_run` below interleaves the workers' atomic steps,
which matters because the worker's check-then-insert on the shared
`seen_hashes` set takes no lock (`seen_hashes_lock` is used only by
the sequential paths). -/

abbrev HashFn := List Nat → String

structure DlResponse where
  ok : Bool
  content : List Nat
deriving DecidableEq, Repr

structure DlResult where
  file_path : String
  file_url : String
deriving DecidableEq, Repr

/-- The run's written files; `open(path, "wb")` truncates, so a second
write to the same name replaces the entry. -/
def fsWrite (fs : List (String × List Nat)) (name : String) (content : List Nat) :
    List (String × List Nat) :=
  if fs.any (fun p => p.1 = name) then
    fs.map (fun p => if p.1 = name then (name, content) else p)
  else fs ++ [(name, content)]

structure DlState where
  results : List DlResult
  seen : List String
  fs : List (String × List Nat)
deriving Repr

/-- `filename = f"doc_{file_hash[:12]}.pdf"`. -/
def dl_filename (hashFn : HashFn) (content : List Nat) : String :=
  "doc_" ++ strTake (hashFn content) 12 ++ ".pdf"

/-- `download_one` (the worker closure inside `download_files_parallel`):
GET the url; bail out on failure or empty body; skip when the content
hash is already seen; otherwise record the hash, then attempt the file
write (a write failure is swallowed by the worker's `except`, leaving
the hash recorded), and emit a result on success. -/
def download_one (hashFn : HashFn) (writeOk : String → Bool)
    (http : String → Option DlResponse) (url : String) (st : DlState) : DlState :=
  match http url with
  | none => st
  | some resp =>
    if ¬ resp.ok ∨ resp.content = [] then st
    else
      let file_hash := hashFn resp.content
      if st.seen.contains file_hash then st
      else
        let seen' := st.seen ++ [file_hash]
        let filename := dl_filename hashFn resp.content
        if writeOk filename then
          { results := st.results ++ [⟨filename, url⟩], seen := seen',
            fs := fsWrite st.fs filename resp.content }
        else { st with seen := seen' }

/-- The pool execution of `download_files_parallel` over the links. -/
def dl_run_go (hashFn : HashFn) (writeOk : String → Bool)
    (http : String → Option DlResponse) : List String → DlState → DlState
  | [], st => st
  | url :: rest, st => dl_run_go hashFn writeOk http rest (download_one hashFn writeOk http url st)

/-- `download_files_parallel`: load the persisted hash index, run the
workers, and (by returning `seen`) persist the updated index at run
end.  `fs` collects the files newly written by this run. -/
def download_files_parallel (hashFn : HashFn) (writeOk : String → Bool)
    (http : String → Option DlResponse) (links : List String)
    (persisted_hashes : List String) : DlState :=
  dl_run_go hashFn writeOk http links { results := [], seen := persisted_hashes, fs := [] }

/-! ## Binary persistence (`downloader._download_binary_response`) -/

/-- A response reaching `_download_binary_response`, with the fields it
reads: the filename already parsed out of the Content-Disposition
header (`filename_from_content_disposition`), `urlparse(resp.url).path`,
the declared content type, and the body. -/
structure BinResponse where
  cdFilename : Option String
  urlPath : String
  contentType : String
  content : List Nat
deriving DecidableEq, Repr

/-- `downloader.sanitize_filename`. -/
def sanitize_filename (name : String) : String :=
  let kept := name.data.filter (fun c => c.isAlphanum ∨ c = ' ' ∨ c = '.' ∨ c = '_' ∨ c = '-')
  String.mk ((kept.reverse.dropWhile Char.isWhitespace).reverse)

/-- `downloader.guess_filename`. -/
def guess_filename (resp : BinResponse) : String :=
  match resp.cdFilename with
  | some fn => fn
  | none =>
    let base := sanitize_filename (unquote (lastSplit '/' resp.urlPath))
    if base ≠ "" then base
    else
      let ct := strToLower resp.contentType
      if substr "pdf" ct then "documento.pdf"
      else if substr "word" ct ∨ substr "officedocument" ct then "documento.docx"
      else if substr "html" ct then "pagina.html"
      else "arquivo.bin"

def BIN_NAME_EXTS : List String := [".pdf", ".doc", ".docx", ".html", ".htm", ".xls", ".xlsx"]

/-- `pathlib.Path` stem/suffix split at the last dot. -/
def splitExt (name : String) : String × String :=
  let rev := name.data.reverse
  let afterDot := rev.takeWhile (fun c => c ≠ '.')
  if afterDot.length = rev.length ∨ afterDot.length + 1 = rev.length then (name, "")
  else (String.mk (rev.drop (afterDot.length + 1)).reverse,
        String.mk ('.' :: afterDot.reverse))

structure BinState where
  seen : List String
  fs : List (String × List Nat)
deriving Repr

structure BinEntry where
  file_path : String
  file_url : String
  source_page : String
deriving DecidableEq, Repr

/-- The filename derived at the top of `_download_binary_response`:
`guess_filename`, extended from the content type when it lacks a
document extension. -/
def bin_final_name (resp : BinResponse) : String :=
  let file_name := guess_filename resp
  if BIN_NAME_EXTS.any (fun ext => strEndsWith (strToLower file_name) ext) then file_name
  else
    let ct := strToLower resp.contentType
    if substr "pdf" ct then file_name ++ ".pdf"
    else if substr "word" ct ∨ substr "officedocument" ct then file_name ++ ".docx"
    else if substr "html" ct then file_name ++ ".html"
    else file_name

/-- The destination name after collision suffixing (`now` models
`int(time.time())`). -/
def bin_dest (resp : BinResponse) (st : BinState) (now : Nat) : String :=
  let file_name := bin_final_name resp
  if st.fs.any (fun p => p.1 = file_name) then
    (splitExt file_name).1 ++ "_" ++ toString now ++ (splitExt file_name).2
  else file_name

/-- `downloader._download_binary_response`: derive the filename,
re-apply the reject-list to it, suffix on name collision, check-and-
insert the content hash under the lock, then attempt the write,
swallowing write errors after the hash is already recorded. -/
def download_binary_response (hashFn : HashFn) (writeOk : String → Bool) (now : Nat)
    (resp : BinResponse) (url : String) (st : BinState) : Option BinEntry × BinState :=
  if ¬ is_probably_meeting_document (bin_final_name resp) then (none, st)
  else
    let dest := bin_dest resp st now
    let file_hash := hashFn resp.content
    if st.seen.contains file_hash then (none, st)
    else
      let seen' := st.seen ++ [file_hash]
      if writeOk dest then
        (some ⟨dest, url, url⟩, { seen := seen', fs := fsWrite st.fs dest resp.content })
      else (none, { st with seen := seen' })

/-! ## Interleaved execution of the pool workers

`download_one` touches the shared state in separate Python statements:
the GET, the membership test `file_hash in seen_hashes`, the insert
`seen_hashes.add(file_hash)`, the file write, and the `return` of the
result dict.  No lock is held around any of them (`seen_hashes_lock`
exists in the module but the parallel worker never takes it), so the
interpreter may switch threads between any two of these steps; the
model below makes each of them one atomic step of a worker and lets a
schedule (a list of worker indices) pick which worker steps next. -/

/-- One pool worker executing `download_one`: its link, its program
counter over the atomic steps (0 = GET, 1 = membership test,
2 = insert hash, 3 = write file, 4 = return result dict, 5 = done),
the fetched body, and the result it returned, if any. -/
structure RacyWorker where
  url : String
  pc : Nat
  content : List Nat
  result : Option DlResult
deriving DecidableEq, Repr

/-- The pool's shared state plus its workers. -/
structure RacyState where
  workers : List RacyWorker
  seen : List String
  fs : List (String × List Nat)
deriving Repr

/-- One atomic step of one worker, faithful to the statement order of
`download_one`: failure or empty body ends the worker; a seen hash ends
it with no result; the insert happens before the write; a write failure
is swallowed after the hash is recorded; the result is emitted last. -/
def racy_worker_step (hashFn : HashFn) (writeOk : String → Bool)
    (http : String → Option DlResponse) (w : RacyWorker)
    (seen : List String) (fs : List (String × List Nat)) :
    RacyWorker × List String × List (String × List Nat) :=
  match w.pc with
  | 0 =>
    match http w.url with
    | none => ({ w with pc := 5 }, seen, fs)
    | some resp =>
      if ¬ resp.ok ∨ resp.content = [] then ({ w with pc := 5 }, seen, fs)
      else ({ w with pc := 1, content := resp.content }, seen, fs)
  | 1 =>
    if seen.contains (hashFn w.content) then ({ w with pc := 5 }, seen, fs)
    else ({ w with pc := 2 }, seen, fs)
  | 2 => ({ w with pc := 3 }, seen ++ [hashFn w.content], fs)
  | 3 =>
    if writeOk (dl_filename hashFn w.content) then
      ({ w with pc := 4 }, seen, fsWrite fs (dl_filename hashFn w.content) w.content)
    else ({ w with pc := 5 }, seen, fs)
  | 4 =>
    ({ w with pc := 5, result := some ⟨dl_filename hashFn w.content, w.url⟩ }, seen, fs)
  | _ => (w, seen, fs)

/-- Run the pool under a schedule: each entry names the worker that
performs its next atomic step (an index past the pool or a finished
worker is a no-op). -/
def racy_run (hashFn : HashFn) (writeOk : String → Bool)
    (http : String → Option DlResponse) : List Nat → RacyState → RacyState
  | [], st => st
  | i :: sched, st =>
    match st.workers.get? i with
    | none => racy_run hashFn writeOk http sched st
    | some w =>
      let step := racy_worker_step hashFn writeOk http w st.seen st.fs
      racy_run hashFn writeOk http sched
        { workers := st.workers.set i step.1, seen := step.2.1, fs := step.2.2 }

/-- The pool at submission time: one fresh worker per link, the seen
set preloaded from the persistent index, nothing written yet. -/
def racy_init (links : List String) (persisted_hashes : List String) : RacyState :=
  { workers := links.map (fun u => ⟨u, 0, [], none⟩), seen := persisted_hashes, fs := [] }

/-- The results the pool's callers collect: each worker's returned dict. -/
def racy_results (st : RacyState) : List DlResult :=
  st.workers.filterMap (fun w => w.result)

/-! ## Static page fetcher (`discovery.safe_get_text`) -/

def MAX_REQUEST_RETRIES : Nat := 3
def REQUEST_BACKOFF_LO : ℚ := 3 / 2
def REQUEST_BACKOFF_HI : ℚ := 3

/-- Outcome of one `requests.get` attempt: a raised exception, or a
response with status code and body text. -/
inductive AttemptOutcome where
  | exn : AttemptOutcome
  | status : Nat → String → AttemptOutcome
deriving DecidableEq, Repr

/-- The only outcome `safe_get_text` accepts: status 200, yielding the body. -/
def attempt_success : AttemptOutcome → Option String
  | .status 200 t => some t
  | _ => none

/-- The retry loop of `safe_get_text`: `remaining` attempts left,
attempt index `i`; a failed attempt (exception or non-200) sleeps
`random.uniform(1.5, 3.0)` seconds (`draws i`) and retries; exhaustion
returns `none`.  Returns the result and the list of sleep durations. -/
def safe_get_text_go (attempts : Nat → AttemptOutcome) (draws : Nat → ℚ) :
    Nat → Nat → Option String × List ℚ
  | 0, _ => (none, [])
  | remaining + 1, i =>
    match attempt_success (attempts i) with
    | some t => (some t, [])
    | none =>
      let r := safe_get_text_go attempts draws remaining (i + 1)
      (r.1, draws i :: r.2)

/-- `discovery.safe_get_text` as a function of the attempt outcomes and
the random backoff draws; it never raises (all exceptions are absorbed
into the `none` result). -/
def safe_get_text (attempts : Nat → AttemptOutcome) (draws : Nat → ℚ) :
    Option String × List ℚ :=
  safe_get_text_go attempts draws MAX_REQUEST_RETRIES 0

/-! ## Per-host request concurrency (`download_files_parallel` workers)

The worker `download_one` issues its `requests.get` with no
synchronisation at all: `_get_domain_semaphore` exists in the module
but is never called, so the only constraint on the interleaving of the
workers' request windows is the pool size (`workers`).  A schedule is a
sequence of start/finish events of the per-link workers; any
well-formed schedule is a possible execution. -/

def DOMAIN_LIMIT : Nat := 2
def DEFAULT_POOL_WORKERS : Nat := 8

inductive DlEvent where
  | start : Nat → DlEvent
  | finish : Nat → DlEvent
deriving DecidableEq, Repr

def countEv (e : DlEvent) (l : List DlEvent) : Nat := l.count e

/-- Worker `w` is mid-request after the event prefix `pre`. -/
def inFlightWorker (pre : List DlEvent) (w : Nat) : Bool :=
  0 < countEv (.start w) pre ∧ countEv (.finish w) pre = 0

/-- Number of in-flight requests to `host` after `pre`, for workers
downloading `hosts` (worker `w` targets `hosts[w]`). -/
def inFlightToHost (hosts : List String) (pre : List DlEvent) (host : String) : Nat :=
  ((List.range hosts.length).filter
    (fun w => hosts.get? w = some host ∧ inFlightWorker pre w)).length

/-- A schedule of request events is well-formed for `hosts` under pool
size `workers` iff every event belongs to a worker, each worker starts
and finishes at most once, never finishes before starting, and at no
point are more than `workers` requests in flight in total.  Since
`download_one` acquires no lock or semaphore around `requests.get`,
every well-formed schedule is realizable by the thread pool. -/
def wellFormedSchedule (workers : Nat) (hosts : List String) (sched : List DlEvent) : Bool :=
  (sched.all (fun e => match e with
    | .start w => w < hosts.length ∧ countEv (.start w) sched ≤ 1
    | .finish w => w < hosts.length ∧ countEv (.finish w) sched ≤ 1
        ∧ countEv (.start w) sched = 1))
  ∧ ((List.range (sched.length + 1)).all (fun k =>
      let pre := sched.take k
      (((List.range hosts.length).filter (fun w => inFlightWorker pre w)).length ≤ workers)
      ∧ (List.range hosts.length).all (fun w =>
          countEv (.finish w) pre ≤ countEv (.start w) pre)))

/-! # Shared lemmas about the download engine -/

theorem download_one_seen_mono (hashFn : HashFn) (writeOk : String → Bool)
    (http : String → Option DlResponse) (url : String) (st : DlState) (h : String)
    (hh : h ∈ st.seen) : h ∈ (download_one hashFn writeOk http url st).seen := by
  unfold download_one
  cases hr : http url with
  | none => exact hh
  | some resp =>
    dsimp only
    split
    · exact hh
    · split
      · exact hh
      · split
        · exact List.mem_append_left _ hh
        · exact List.mem_append_left _ hh

theorem dl_run_go_seen_mono (hashFn : HashFn) (writeOk : String → Bool)
    (http : String → Option DlResponse) (links : List String) (st : DlState) (h : String)
    (hh : h ∈ st.seen) : h ∈ (dl_run_go hashFn writeOk http links st).seen := by
  induction links generalizing st with
  | nil => exact hh
  | cons u us ih =>
    exact ih _ (download_one_seen_mono hashFn writeOk http u st h hh)

theorem download_one_records (hashFn : HashFn) (writeOk : String → Bool)
    (http : String → Option DlResponse) (url : String) (st : DlState) (resp : DlResponse)
    (hr : http url = some resp) (hok : resp.ok = true) (hne : resp.content ≠ []) :
    hashFn resp.content ∈ (download_one hashFn writeOk http url st).seen := by
  unfold download_one
  rw [hr]
  dsimp only
  split
  · rename_i hcond
    exact absurd hcond (by simp [hok, hne])
  · split
    · rename_i hseen
      simpa [List.elem_iff] using hseen
    · split
      · exact List.mem_append_right _ (List.mem_singleton.mpr rfl)
      · exact List.mem_append_right _ (List.mem_singleton.mpr rfl)

theorem dl_run_go_records (hashFn : HashFn) (writeOk : String → Bool)
    (http : String → Option DlResponse) (links : List String) (st : DlState)
    (u : String) (resp : DlResponse) (hu : u ∈ links) (hr : http u = some resp)
    (hok : resp.ok = true) (hne : resp.content ≠ []) :
    hashFn resp.content ∈ (dl_run_go hashFn writeOk http links st).seen := by
  induction links generalizing st with
  | nil => cases hu
  | cons v vs ih =>
    rcases List.mem_cons.mp hu with h | h
    · subst h
      exact dl_run_go_seen_mono hashFn writeOk http vs _ _
        (download_one_records hashFn writeOk http u st resp hr hok hne)
    · exact ih (download_one hashFn writeOk http v st) h

theorem download_one_noop (hashFn : HashFn) (writeOk : String → Bool)
    (http : String → Option DlResponse) (url : String) (st : DlState)
    (hnoop : ∀ resp, http url = some resp → resp.ok = true → resp.content ≠ [] →
      hashFn resp.content ∈ st.seen) :
    download_one hashFn writeOk http url st = st := by
  unfold download_one
  cases hr : http url with
  | none => rfl
  | some resp =>
    dsimp only
    split
    · rfl
    · rename_i hcond
      have hok : resp.ok = true := by
        by_contra hno
        exact hcond (Or.inl (by simpa using hno))
      have hne : resp.content ≠ [] := fun hnil => hcond (Or.inr hnil)
      split
      · rfl
      · rename_i hseen
        exact absurd (by simpa [List.elem_iff] using hnoop resp hr hok hne) hseen

theorem dl_run_go_noop (hashFn : HashFn) (writeOk : String → Bool)
    (http : String → Option DlResponse) (links : List String) (st : DlState)
    (hnoop : ∀ u ∈ links, ∀ resp, http u = some resp → resp.ok = true → resp.content ≠ [] →
      hashFn resp.content ∈ st.seen) :
    dl_run_go hashFn writeOk http links st = st := by
  induction links with
  | nil => rfl
  | cons u us ih =>
    rw [dl_run_go, download_one_noop hashFn writeOk http u st
      (hnoop u (List.mem_cons_self u us))]
    exact ih (fun v hv => hnoop v (List.mem_cons_of_mem u hv))

/-- C2: Re-running `download_files_parallel` against the same link list,
the same server responses and the persistent hash index written by the
first run yields zero new download results, zero newly written files,
and an unchanged hash index. -/
theorem resolution_idempotent (hashFn : HashFn) (writeOk : String → Bool)
    (http : String → Option DlResponse) (links : List String) (persisted : List String) :
    (download_files_parallel hashFn writeOk http links
        (download_files_parallel hashFn writeOk http links persisted).seen).results = []
    ∧ (download_files_parallel hashFn writeOk http links
        (download_files_parallel hashFn writeOk http links persisted).seen).fs = []
    ∧ (download_files_parallel hashFn writeOk http links
        (download_files_parallel hashFn writeOk http links persisted).seen).seen
      = (download_files_parallel hashFn writeOk http links persisted).seen := by
  have hrun2 : download_files_parallel hashFn writeOk http links
      (download_files_parallel hashFn writeOk http links persisted).seen
      = { results := [],
          seen := (download_files_parallel hashFn writeOk http links persisted).seen,
          fs := [] } := by
    unfold download_files_parallel
    exact dl_run_go_noop hashFn writeOk http links _
      (fun u hu resp hr hok hne =>
        dl_run_go_records hashFn writeOk http links _ u resp hu hr hok hne)
  rw [hrun2]
  exact ⟨rfl, rfl, rfl⟩

/-! # C8: the static page fetcher -/

theorem safe_get_text_go_none_iff (attempts : Nat → AttemptOutcome) (draws : Nat → ℚ)
    (n i : Nat) :
    (safe_get_text_go attempts draws n i).1 = none
      ↔ ∀ j < n, attempt_success (attempts (i + j)) = none := by
  induction n generalizing i with
  | zero => simp [safe_get_text_go]
  | succ m ih =>
    rw [safe_get_text_go]
    cases h : attempt_success (attempts i) with
    | some t =>
      dsimp only
      simp only [reduceCtorEq, false_iff]
      intro hall
      simpa [h] using hall 0 (Nat.succ_pos m)
    | none =>
      dsimp only
      rw [ih (i + 1)]
      constructor
      · intro hall j hj
        cases j with
        | zero => simpa using h
        | succ k =>
          have := hall k (Nat.lt_of_succ_lt_succ hj)
          simpa [Nat.add_assoc, Nat.add_comm 1 k] using this
      · intro hall j hj
        have := hall (j + 1) (Nat.succ_lt_succ hj)
        simpa [Nat.add_assoc, Nat.add_comm 1 j] using this

theorem attempt_success_inv (a : AttemptOutcome) (t : String)
    (h : attempt_success a = some t) : a = .status 200 t := by
  cases a with
  | exn => simp [attempt_success] at h
  | status code s =>
    unfold attempt_success at h
    by_cases hc : code = 200
    · subst hc
      simp only [if_pos rfl, Option.some.injEq] at h
      subst h
      rfl
    · simp [hc] at h

theorem safe_get_text_go_some (attempts : Nat → AttemptOutcome) (draws : Nat → ℚ)
    (n i : Nat) (t : String) (h : (safe_get_text_go attempts draws n i).1 = some t) :
    ∃ j < n, attempts (i + j) = .status 200 t
      ∧ ∀ k < j, attempt_success (attempts (i + k)) = none := by
  induction n generalizing i with
  | zero => simp [safe_get_text_go] at h
  | succ m ih =>
    rw [safe_get_text_go] at h
    cases hs : attempt_success (attempts i) with
    | some s =>
      rw [hs] at h
      cases h
      exact ⟨0, Nat.succ_pos m, by simpa using attempt_success_inv _ _ hs,
        fun k hk => absurd hk (Nat.not_lt_zero k)⟩
    | none =>
      rw [hs] at h
      dsimp only at h
      obtain ⟨j, hj, hj200, hjmin⟩ := ih (i + 1) h
      refine ⟨j + 1, Nat.succ_lt_succ hj, by simpa [Nat.add_assoc, Nat.add_comm 1 j] using hj200,
        fun k hk => ?_⟩
      cases k with
      | zero => simpa using hs
      | succ k' =>
        have := hjmin k' (Nat.lt_of_succ_lt_succ hk)
        simpa [Nat.add_assoc, Nat.add_comm 1 k'] using this

theorem safe_get_text_go_sleeps (attempts : Nat → AttemptOutcome) (draws : Nat → ℚ)
    (n i : Nat) :
    (∀ d ∈ (safe_get_text_go attempts draws n i).2, ∃ j, d = draws j)
      ∧ (safe_get_text_go attempts draws n i).2.length ≤ n := by
  induction n generalizing i with
  | zero => simp [safe_get_text_go]
  | succ m ih =>
    rw [safe_get_text_go]
    cases h : attempt_success (attempts i) with
    | some t => simp
    | none =>
      dsimp only
      obtain ⟨ihm, ihl⟩ := ih (i + 1)
      refine ⟨fun d hd => ?_, by simpa using Nat.succ_le_succ ihl⟩
      rcases List.mem_cons.mp hd with h | h
      · exact ⟨i, h⟩
      · exact ihm d h

/-- C8: `safe_get_text` never raises: its value is `some` body exactly
when one of the first 3 attempts (`MAX_REQUEST_RETRIES`) returns status
200 and `none` (the empty result for the caller) otherwise, and every
inter-attempt sleep is a bounded randomized backoff drawn from
`[1.5, 3.0]`. -/
theorem static_fetcher_never_fatal (attempts : Nat → AttemptOutcome) (draws : Nat → ℚ)
    (hdraws : ∀ i, REQUEST_BACKOFF_LO ≤ draws i ∧ draws i ≤ REQUEST_BACKOFF_HI) :
    ((safe_get_text attempts draws).1 = none
      ↔ ∀ j < MAX_REQUEST_RETRIES, attempt_success (attempts j) = none)
    ∧ (∀ t, (safe_get_text attempts draws).1 = some t →
        ∃ j < MAX_REQUEST_RETRIES, attempts j = .status 200 t
          ∧ ∀ k < j, attempt_success (attempts k) = none)
    ∧ (∀ d ∈ (safe_get_text attempts draws).2,
        REQUEST_BACKOFF_LO ≤ d ∧ d ≤ REQUEST_BACKOFF_HI)
    ∧ (safe_get_text attempts draws).2.length ≤ MAX_REQUEST_RETRIES := by
  refine ⟨?_, ?_, ?_, ?_⟩
  · simpa using safe_get_text_go_none_iff attempts draws MAX_REQUEST_RETRIES 0
  · intro t ht
    simpa using safe_get_text_go_some attempts draws MAX_REQUEST_RETRIES 0 t ht
  · intro d hd
    obtain ⟨j, hj⟩ := (safe_get_text_go_sleeps attempts draws MAX_REQUEST_RETRIES 0).1 d hd
    exact hj ▸ hdraws j
  · exact (safe_get_text_go_sleeps attempts draws MAX_REQUEST_RETRIES 0).2

/-- Witness for C8 at a concrete input: every attempt raises, the draws
are all 2, and the fetcher returns the empty result after 3 sleeps. -/
theorem static_fetcher_never_fatal_witness :
    (safe_get_text (fun _ => AttemptOutcome.exn) (fun _ => 2)).1 = none
      ∧ (safe_get_text (fun _ => AttemptOutcome.exn) (fun _ => 2)).2.length ≤ MAX_REQUEST_RETRIES := by
  have h := static_fetcher_never_fatal (fun _ => AttemptOutcome.exn) (fun _ => 2)
    (fun i => by constructor <;> norm_num [REQUEST_BACKOFF_LO, REQUEST_BACKOFF_HI])
  exact ⟨h.1.mpr (fun j _ => rfl), h.2.2.2⟩

/-! # C4: the detail-page detector and the deferred-resolution token -/

theorem anchorEmit_none_resolve (base : String) (a : Anchor) :
    anchorEmit (fun _ => none) base a = [] := by
  unfold anchorEmit
  split_ifs <;> rfl

theorem anchorPass_none_resolve (base : String) (anchors : List Anchor) :
    anchorPass (fun _ => none) base anchors = [] := by
  unfold anchorPass
  induction anchors with
  | nil => rfl
  | cons a as ih =>
    rw [List.flatMap_cons, anchorEmit_none_resolve, ih]
    rfl

/-- C4: a seed page whose HTML contains an anchor to `/pagina?id=77`
(a numeric record-identifier query parameter, no category parameter,
not extension-terminated) yields, for any anchor text and in the
absence of resolvable file links, exactly one deferred resource,
encoded as `detail://<abs-url>|77`; and the consumer-side parsing of
`download_detail_page` recovers exactly that page URL and record id. -/
theorem detail_page_extraction (t : String) :
    extract_resources (fun _ => none) "https://site.gov.br/"
        { anchors := [⟨"/pagina?id=77", t⟩], embeds := [], inlineDocUrls := [] }
      = [detail_token "https://site.gov.br/pagina?id=77" "77"]
    ∧ parse_detail_token (detail_token "https://site.gov.br/pagina?id=77" "77")
      = some ("https://site.gov.br/pagina?id=77", "77") := by
  constructor
  · unfold extract_resources
    rw [anchorPass_none_resolve]
    rfl
  · rfl

/-! # C3: reject-list precedence in extraction -/

/-- C3 counterexample: on a page whose raw HTML contains the literal
URL `https://x.gov.br/balanco-2023.pdf` (as the href of an anchor whose
text and filename both match the reject keyword `balanc`), extraction
emits that URL anyway: the literal-URL regex pass of
`extract_pdfs_and_file_links_from_html` applies only the topical
blacklist, not the filename reject-list, so the claim fails at this
input. -/
theorem reject_list_precedence_counterexample :
    extract_pdfs_and_file_links_from_html (fun u => some u) "https://x.gov.br/"
        { anchors := [⟨"https://x.gov.br/balanco-2023.pdf", "balanco 2023"⟩],
          embeds := [],
          inlineDocUrls := ["https://x.gov.br/balanco-2023.pdf"] }
      = ["https://x.gov.br/balanco-2023.pdf"]
    ∧ is_probably_meeting_document
        (decoded_file_name "https://x.gov.br/balanco-2023.pdf") = false := by
  exact ⟨by rfl, by rfl⟩

theorem mem_anchorEmit (resolve : String → Option String) (base : String)
    (a : Anchor) (u : String) (hu : u ∈ anchorEmit resolve base a) :
    is_probably_meeting_document (decoded_file_name u) = true
      ∧ is_probably_meeting_document (strToLower (strTrim a.text)) = true
      ∧ resolve (urljoin base (strTrim a.href)) = some u := by
  unfold anchorEmit at hu
  generalize hB : blacklisted (urljoin base (strTrim a.href)) = cB at hu
  generalize hT : is_probably_meeting_document (strToLower (strTrim a.text)) = cT at hu
  generalize hP : (looks_like_file (urljoin base (strTrim a.href))
      || substr "download" (strToLower (strTrim a.text))
      || substr "baixar" (strToLower (strTrim a.text))
      || substr "ata nº" (strToLower (strTrim a.text))) = cP at hu
  generalize hres : resolve (urljoin base (strTrim a.href)) = r at hu
  cases cB with
  | true => simp at hu
  | false =>
  cases cT with
  | false => simp at hu
  | true =>
  cases cP with
  | false => simp at hu
  | true =>
  cases r with
  | none => simp at hu
  | some final =>
  simp only [Bool.false_eq_true, if_false, not_true_eq_false, if_true] at hu
  generalize hF : is_probably_meeting_document (decoded_file_name final) = cF at hu
  cases cF with
  | false => simp at hu
  | true =>
    simp only [if_true, List.mem_singleton] at hu
    subst hu
    exact ⟨hF, rfl, rfl⟩

theorem mem_anchorPass (resolve : String → Option String) (base : String)
    (anchors : List Anchor) (u : String) (hu : u ∈ anchorPass resolve base anchors) :
    is_probably_meeting_document (decoded_file_name u) = true
      ∧ ∃ a ∈ anchors, is_probably_meeting_document (strToLower (strTrim a.text)) = true
          ∧ resolve (urljoin base (strTrim a.href)) = some u := by
  unfold anchorPass at hu
  obtain ⟨a, ha, hmem⟩ := List.mem_flatMap.mp hu
  obtain ⟨hfn, ht, hr⟩ := mem_anchorEmit resolve base a u hmem
  exact ⟨hfn, a, ha, ht, hr⟩

theorem mem_embedEmit (resolve : String → Option String) (base : String)
    (src : String) (u : String) (hu : u ∈ embedEmit resolve base src) :
    is_probably_meeting_document (decoded_file_name u) = true := by
  unfold embedEmit at hu
  generalize hB : blacklisted (urljoin base src) = cB at hu
  generalize hL : looks_like_file (urljoin base src) = cL at hu
  generalize hres : resolve (urljoin base src) = r at hu
  cases cB with
  | true => simp at hu
  | false =>
  cases cL with
  | false => simp at hu
  | true =>
  cases r with
  | none => simp at hu
  | some final =>
  simp only [Bool.false_eq_true, not_false_eq_true, and_self, if_true] at hu
  generalize hF : is_probably_meeting_document (decoded_file_name final) = cF at hu
  cases cF with
  | false => simp at hu
  | true =>
    simp only [if_true, List.mem_singleton] at hu
    subst hu
    exact hF

theorem mem_embedPass (resolve : String → Option String) (base : String)
    (embeds : List String) (u : String) (hu : u ∈ embedPass resolve base embeds) :
    is_probably_meeting_document (decoded_file_name u) = true := by
  unfold embedPass at hu
  obtain ⟨src, hs, hmem⟩ := List.mem_flatMap.mp hu
  exact mem_embedEmit resolve base src u hmem

/-- C3 amended: the reject-list does disqualify every anchor-derived
and every iframe/embed-derived candidate — such a candidate always
carries a filename passing `is_probably_meeting_document`, and an
anchor-derived one originates from an anchor whose text also passes —
but candidates found by the literal-URL regex scan over the raw HTML
bypass the reject-list (only the topical blacklist is applied to them). -/
theorem reject_list_precedence_amended (resolve : String → Option String)
    (base : String) (page : Html) (u : String) :
    (u ∈ anchorPass resolve base page.anchors →
      is_probably_meeting_document (decoded_file_name u) = true
        ∧ ∃ a ∈ page.anchors, is_probably_meeting_document (strToLower (strTrim a.text)) = true
            ∧ resolve (urljoin base (strTrim a.href)) = some u)
    ∧ (u ∈ embedPass resolve base page.embeds →
      is_probably_meeting_document (decoded_file_name u) = true) :=
  ⟨fun hu => mem_anchorPass resolve base page.anchors u hu,
   fun hu => mem_embedPass resolve base page.embeds u hu⟩

/-- Witness for C3's amended theorem at a concrete input: an anchor to
`ata-03-2024.pdf` is emitted with a reject-passing filename. -/
theorem reject_list_precedence_amended_witness :
    is_probably_meeting_document
      (decoded_file_name "https://s.gov.br/ata-03-2024.pdf") = true := by
  have h := (reject_list_precedence_amended (fun u => some u) "https://s.gov.br/documentos"
    { anchors := [⟨"ata-03-2024.pdf", "ata da reuniao"⟩], embeds := [], inlineDocUrls := [] }
    "https://s.gov.br/ata-03-2024.pdf").1 (by decide)
  exact h.1

/-! # Crawl-step branch characterizations -/

theorem crawl_step_year (oracle : PageOracle) (base_domain : String) (max_depth : Nat)
    (s : CrawlState) (url : String) (depth : Nat) (rest : List (String × Nat))
    (hq : s.queue = (url, depth) :: rest)
    (hv : s.visited.contains url = false)
    (hd : ¬ max_depth < depth)
    (hb : blacklisted url = false)
    (hy : is_year_page_candidate url = true) :
    crawl_step true oracle base_domain max_depth s
      = ({ queue := rest, visited := s.visited ++ [url],
           foundFiles := appendNew (appendNew s.foundFiles (static_found oracle url))
             (oracle.yearPageFiles url),
           foundPrimary := true },
         { skipped := false, usedYearExtractor := true, rendered := false,
           interactive := false, enqueued := [] }) := by
  unfold crawl_step
  rw [hq]
  dsimp only
  rw [hv]
  rw [if_neg Bool.false_ne_true, if_neg hd, if_neg (by simp [hb]), if_pos ⟨rfl, hy⟩]
  rfl

theorem crawl_step_selenium (oracle : PageOracle) (base_domain : String) (max_depth : Nat)
    (s : CrawlState) (url : String) (depth : Nat) (rest : List (String × Nat))
    (hq : s.queue = (url, depth) :: rest)
    (hv : s.visited.contains url = false)
    (hd : ¬ max_depth < depth)
    (hb : blacklisted url = false)
    (hy : is_year_page_candidate url = false) :
    crawl_step true oracle base_domain max_depth s
      = ({ queue := rest ++ selenium_enq oracle base_domain url (s.visited ++ [url]) depth max_depth,
           visited := s.visited ++ [url],
           foundFiles := appendNew
             (if is_promising_nav url then
               appendNew (appendNew s.foundFiles (static_found oracle url))
                 (oracle.interactiveFiles url)
              else appendNew s.foundFiles (static_found oracle url))
             (extract_pdfs_and_file_links_from_html oracle.resolve
               (selenium_cuj oracle base_domain url) (oracle.renderedPage url)),
           foundPrimary := s.foundPrimary },
         { skipped := false, usedYearExtractor := false, rendered := true,
           interactive := is_promising_nav url,
           enqueued := selenium_enq oracle base_domain url (s.visited ++ [url]) depth max_depth }) := by
  unfold crawl_step
  rw [hq]
  dsimp only
  rw [hv]
  rw [if_neg Bool.false_ne_true, if_neg hd, if_neg (by simp [hb]),
    if_neg (by simp [hy]), if_pos rfl]

theorem crawl_step_nodriver_trace (oracle : PageOracle) (base_domain : String)
    (max_depth : Nat) (s : CrawlState) (url : String) (depth : Nat)
    (rest : List (String × Nat))
    (hq : s.queue = (url, depth) :: rest)
    (hv : s.visited.contains url = false)
    (hd : ¬ max_depth < depth)
    (hb : blacklisted url = false) :
    (crawl_step false oracle base_domain max_depth s).2.rendered = false
    ∧ (crawl_step false oracle base_domain max_depth s).2.usedYearExtractor = false
    ∧ (crawl_step false oracle base_domain max_depth s).2.interactive = false := by
  unfold crawl_step
  rw [hq]
  dsimp only
  rw [hv]
  rw [if_neg Bool.false_ne_true, if_neg hd, if_neg (by simp [hb]),
    if_neg (by simp), if_neg (by simp)]
  cases oracle.staticPage url <;> exact ⟨rfl, rfl, rfl⟩

/-! # C5: gating of the dynamic (browser-driven) fallback -/

/-- C5 counterexample: the dynamic fallback is not gated on static
extraction having found nothing — with a driver available, `crawl_site`
renders every dequeued non-year page, including one whose static
extraction already produced a candidate.  The claim (`rendered` only
when static extraction found nothing and the URL is promising and a
session exists) is false at this concrete input. -/
theorem dynamic_fallback_gating_counterexample :
    ¬ (∀ (driver : Bool) (oracle : PageOracle) (base_domain : String) (max_depth : Nat)
        (s : CrawlState) (url : String) (depth : Nat) (rest : List (String × Nat)),
        s.queue = (url, depth) :: rest →
        (crawl_step driver oracle base_domain max_depth s).2.rendered = true →
        static_found oracle url = [] ∧ is_promising_nav url = true ∧ driver = true) := by
  intro hclaim
  exact absurd (hclaim true
    ⟨fun _ => some ⟨[⟨"ata-03-2024.pdf", "ata da reuniao"⟩], [], []⟩,
     fun _ => ⟨[], [], []⟩, fun _ => [], fun _ => [], fun _ => [], fun u => some u⟩
    "s.gov.br" 3
    ⟨[("https://s.gov.br/documentos", 0)], [], [], false⟩
    "https://s.gov.br/documentos" 0 [] rfl (by decide)).1 (by decide)

/-- C5 amended: with the visited/depth/blacklist guards passed, the
Selenium render (`driver.get`, step 2 of `crawl_site`) runs exactly
when a driver is available and the URL is not a year-page candidate —
independently of whether static extraction found candidates; the
specialized year extractor runs exactly when a driver is available and
the URL is a year-page candidate; and the interactive-click pass runs
exactly on rendered pages whose URL matches the promising-navigation
vocabulary. -/
theorem dynamic_fallback_gating_amended (driver : Bool) (oracle : PageOracle)
    (base_domain : String) (max_depth : Nat) (s : CrawlState)
    (url : String) (depth : Nat) (rest : List (String × Nat))
    (hq : s.queue = (url, depth) :: rest)
    (hv : s.visited.contains url = false)
    (hd : ¬ max_depth < depth)
    (hb : blacklisted url = false) :
    (crawl_step driver oracle base_domain max_depth s).2.rendered
        = (driver && !(is_year_page_candidate url))
    ∧ (crawl_step driver oracle base_domain max_depth s).2.usedYearExtractor
        = (driver && is_year_page_candidate url)
    ∧ (crawl_step driver oracle base_domain max_depth s).2.interactive
        = (driver && !(is_year_page_candidate url) && is_promising_nav url) := by
  cases driver with
  | false =>
    obtain ⟨h1, h2, h3⟩ :=
      crawl_step_nodriver_trace oracle base_domain max_depth s url depth rest hq hv hd hb
    simp [h1, h2, h3]
  | true =>
    cases hy : is_year_page_candidate url with
    | true =>
      rw [crawl_step_year oracle base_domain max_depth s url depth rest hq hv hd hb hy]
      simp
    | false =>
      rw [crawl_step_selenium oracle base_domain max_depth s url depth rest hq hv hd hb hy]
      simp

/-- Witness for C5's amended theorem at a concrete input: with a driver
and a non-year URL, the page is rendered. -/
theorem dynamic_fallback_gating_amended_witness :
    (crawl_step true
      { staticPage := fun _ => none,
        renderedPage := fun _ => { anchors := [], embeds := [], inlineDocUrls := [] },
        iframeSrcs := fun _ => [], yearPageFiles := fun _ => [],
        interactiveFiles := fun _ => [], resolve := fun _ => none }
      "s.gov.br" 3
      { queue := [("https://s.gov.br/documentos", 0)], visited := [], foundFiles := [],
        foundPrimary := false }).2.rendered = true := by
  have h := (dynamic_fallback_gating_amended true
    { staticPage := fun _ => none,
      renderedPage := fun _ => { anchors := [], embeds := [], inlineDocUrls := [] },
      iframeSrcs := fun _ => [], yearPageFiles := fun _ => [],
      interactiveFiles := fun _ => [], resolve := fun _ => none }
    "s.gov.br" 3
    { queue := [("https://s.gov.br/documentos", 0)], visited := [], foundFiles := [],
      foundPrimary := false }
    "https://s.gov.br/documentos" 0 [] rfl (by decide) (by decide) (by decide)).1
  rw [h]
  decide

/-! # C9: the primary-target short-circuit of `crawl_site` -/

/-- C9: (i) with a driver available, a dequeued URL passing the
visited/depth/blacklist guards and containing one of the tokens
`atas` / `reunioes` / `comite-de-investimentos` is handed to the
specialized year/accordion extractor (not the step-2 render) and sets
the primary-target flag; (ii) once that flag is set, the crawl loop
returns immediately — no further queued URL is dequeued or visited —
even when the queue is nonempty and the page budget is not reached. -/
theorem year_page_halts_crawl :
    (∀ (oracle : PageOracle) (base_domain : String) (max_depth : Nat) (s : CrawlState)
        (url : String) (depth : Nat) (rest : List (String × Nat)),
        s.queue = (url, depth) :: rest →
        s.visited.contains url = false →
        ¬ max_depth < depth →
        blacklisted url = false →
        is_year_page_candidate url = true →
        (crawl_step true oracle base_domain max_depth s).2.usedYearExtractor = true
          ∧ (crawl_step true oracle base_domain max_depth s).1.foundPrimary = true
          ∧ (crawl_step true oracle base_domain max_depth s).2.rendered = false
          ∧ (crawl_step true oracle base_domain max_depth s).1.queue = rest)
    ∧ (∀ (driver : Bool) (oracle : PageOracle) (base_domain : String)
        (max_depth max_pages fuel : Nat) (s : CrawlState),
        s.foundPrimary = true →
        s.queue ≠ [] →
        s.visited.length < max_pages →
        crawl_loop driver oracle base_domain max_depth max_pages fuel s = s) := by
  constructor
  · intro oracle base_domain max_depth s url depth rest hq hv hd hb hy
    rw [crawl_step_year oracle base_domain max_depth s url depth rest hq hv hd hb hy]
    exact ⟨rfl, rfl, rfl, rfl⟩
  · intro driver oracle base_domain max_depth max_pages fuel s hfp hqs hvp
    cases fuel with
    | zero => rfl
    | succ n =>
      rw [crawl_loop]
      rw [if_neg (by
        rintro (h | h)
        · exact hqs (List.isEmpty_iff.mp h)
        · exact absurd hvp (Nat.not_lt.mpr h))]
      rw [if_pos hfp]

/-- Witness for C9 at concrete inputs: a year-page URL sets the flag
via the specialized extractor, and a flagged state halts the loop with
the frontier untouched. -/
theorem year_page_halts_crawl_witness :
    ((crawl_step true
        ⟨fun _ => none, fun _ => ⟨[], [], []⟩, fun _ => [], fun _ => ["f.pdf"],
         fun _ => [], fun _ => none⟩
        "x.gov.br" 3
        ⟨[("https://x.gov.br/atas", 0)], [], [], false⟩).1.foundPrimary = true)
    ∧ crawl_loop true
        ⟨fun _ => none, fun _ => ⟨[], [], []⟩, fun _ => [], fun _ => [],
         fun _ => [], fun _ => none⟩
        "x.gov.br" 3 300 5 ⟨[("https://x.gov.br/left-over", 1)], ["v"], [], true⟩
      = ⟨[("https://x.gov.br/left-over", 1)], ["v"], [], true⟩ := by
  constructor
  · exact (year_page_halts_crawl.1
      ⟨fun _ => none, fun _ => ⟨[], [], []⟩, fun _ => [], fun _ => ["f.pdf"],
       fun _ => [], fun _ => none⟩
      "x.gov.br" 3 ⟨[("https://x.gov.br/atas", 0)], [], [], false⟩
      "https://x.gov.br/atas" 0 [] rfl (by decide) (by decide) (by decide) (by decide)).2.1
  · exact year_page_halts_crawl.2 true
      ⟨fun _ => none, fun _ => ⟨[], [], []⟩, fun _ => [], fun _ => [],
       fun _ => [], fun _ => none⟩
      "x.gov.br" 3 300 5 ⟨[("https://x.gov.br/left-over", 1)], ["v"], [], true⟩
      rfl (by decide) (by decide)

/-! # C7: cross-domain containment of the frontier -/

theorem mem_insertDesc (x y : Int × String) (l : List (Int × String)) :
    y ∈ insertDesc x l ↔ y = x ∨ y ∈ l := by
  induction l with
  | nil => simp [insertDesc]
  | cons z zs ih =>
    unfold insertDesc
    split_ifs with h
    · rw [List.mem_cons, ih, List.mem_cons]
      tauto
    · rw [List.mem_cons, List.mem_cons]

theorem mem_sortByScoreDesc_aux (l acc : List (Int × String)) (y : Int × String) :
    y ∈ l.foldl (fun acc x => insertDesc x acc) acc ↔ y ∈ acc ∨ y ∈ l := by
  induction l generalizing acc with
  | nil => simp
  | cons x xs ih =>
    rw [List.foldl_cons, ih, mem_insertDesc, List.mem_cons]
    tauto

theorem mem_sortByScoreDesc (l : List (Int × String)) (y : Int × String) :
    y ∈ sortByScoreDesc l ↔ y ∈ l := by
  unfold sortByScoreDesc
  rw [mem_sortByScoreDesc_aux]
  simp

theorem mem_rank_internal_links (base_domain : String) (raw_links : List (String × String))
    (extra : Option String) (u : String)
    (hu : u ∈ rank_internal_links_by_score base_domain raw_links extra) :
    domain_of u = base_domain ∨ extra = some (domain_of u) := by
  unfold rank_internal_links_by_score at hu
  have hu' := List.mem_of_mem_take hu
  obtain ⟨p, hp, hpu⟩ := List.mem_map.mp hu'
  have hp' := (List.mem_filter.mp hp).1
  rw [mem_sortByScoreDesc] at hp'
  obtain ⟨l, _, hfl⟩ := List.mem_filterMap.mp hp'
  dsimp only at hfl
  by_cases h1 : (domain_of l.1 = base_domain ∨ extra = some (domain_of l.1))
  · rw [if_neg (not_not.mpr h1)] at hfl
    by_cases h2 : blacklisted l.1 = true
    · rw [if_pos h2] at hfl; cases hfl
    · rw [if_neg h2] at hfl
      by_cases h3 : looks_like_file l.1 = true
      · rw [if_pos h3] at hfl; cases hfl
      · rw [if_neg h3] at hfl
        have hp2 : p.2 = l.1 := by
          have := Option.some.inj hfl
          rw [← this]
        rw [← hpu, hp2]
        exact h1
  · rw [if_pos h1] at hfl
    cases hfl

theorem mem_enqueue_candidates (visited : List String) (depth maxD : Nat)
    (cands : List String) (e : String × Nat)
    (he : e ∈ enqueue_candidates visited depth maxD cands) : e.1 ∈ cands := by
  unfold enqueue_candidates at he
  obtain ⟨c, hc, hce⟩ := List.mem_map.mp he
  rw [← hce]
  exact (List.mem_filter.mp hc).1

theorem pick_iframe_cases (base_domain current_url : String) (srcs : List String) :
    pick_iframe base_domain current_url srcs = current_url
    ∨ domain_of (pick_iframe base_domain current_url srcs) = base_domain
    ∨ domain_of (pick_iframe base_domain current_url srcs) = "" := by
  unfold pick_iframe
  cases hf : srcs.find?
      (fun src => src ≠ "" ∧ (domain_of src = base_domain ∨ domain_of src = "")) with
  | none => exact Or.inl rfl
  | some src =>
    have hpred := List.find?_some hf
    simp only [decide_eq_true_eq] at hpred
    rcases hpred.2 with h | h
    · exact Or.inr (Or.inl h)
    · exact Or.inr (Or.inr h)

theorem mem_selenium_cands (oracle : PageOracle) (base_domain current_url u : String)
    (hu : u ∈ selenium_cands oracle base_domain current_url) :
    domain_of u = base_domain ∨ domain_of u = "" := by
  unfold selenium_cands at hu
  rcases mem_rank_internal_links _ _ _ _ hu with h | h
  · exact Or.inl h
  · unfold selenium_iframe_domain at h
    split_ifs at h with hne
    · have hd := Option.some.inj h
      unfold selenium_cuj at hne hd
      rcases pick_iframe_cases base_domain current_url (oracle.iframeSrcs current_url)
        with hc | hc | hc
      · exact absurd hc hne
      · exact Or.inl (hd.symm.trans hc)
      · exact Or.inr (hd.symm.trans hc)

/-- C7 counterexample: when the driver switches into an iframe whose
`src` is a relative URL, link resolution is based on that relative
string, the extra allowed domain becomes the empty netloc, and a
frontier entry with a relative URL — whose domain (empty) differs from
the seed's — is enqueued.  The claim as stated is false at this input. -/
theorem cross_domain_counterexample :
    ¬ (∀ (driver : Bool) (oracle : PageOracle) (base_domain : String) (max_depth : Nat)
        (s : CrawlState) (e : String × Nat),
        e ∈ (crawl_step driver oracle base_domain max_depth s).2.enqueued →
        domain_of e.1 = base_domain) := by
  intro hclaim
  have h := hclaim true
    ⟨fun _ => none,
     fun _ => ⟨[⟨"atas-comite.html", "atas do comite de investimentos"⟩], [], []⟩,
     fun _ => ["frame.html"], fun _ => [], fun _ => [], fun _ => none⟩
    "rpps.sc.gov.br" 3
    ⟨[("https://rpps.sc.gov.br/", 0)], [], [], false⟩
    ("atas-comite.html", 1)
    (by decide)
  exact absurd h (by decide)

/-- C7 amended: every frontier entry enqueued by a crawl step has
either the seed's domain or the empty domain (a relative URL produced
when link resolution was based on a relative iframe `src`); no entry
with a different non-empty domain is ever enqueued. -/
theorem cross_domain_amended (driver : Bool) (oracle : PageOracle) (base_domain : String)
    (max_depth : Nat) (s : CrawlState) (e : String × Nat)
    (he : e ∈ (crawl_step driver oracle base_domain max_depth s).2.enqueued) :
    domain_of e.1 = base_domain ∨ domain_of e.1 = "" := by
  unfold crawl_step at he
  rcases hq : s.queue with _ | ⟨⟨url, depth⟩, rest⟩
  · rw [hq] at he
    simp [emptyTrace] at he
  · rw [hq] at he
    dsimp only at he
    generalize s.visited.contains url = cV at he
    cases cV with
    | true => simp [emptyTrace] at he
    | false =>
      rw [if_neg Bool.false_ne_true] at he
      by_cases hd : max_depth < depth
      · rw [if_pos hd] at he
        simp [emptyTrace] at he
      · rw [if_neg hd] at he
        generalize blacklisted url = cB at he
        cases cB with
        | true =>
          rw [if_pos rfl] at he
          simp [emptyTrace] at he
        | false =>
          rw [if_neg Bool.false_ne_true] at he
          cases driver with
          | false =>
            rw [if_neg (by simp), if_neg (by simp)] at he
            cases hsp : oracle.staticPage url with
            | none =>
              rw [hsp] at he
              simp [emptyTrace] at he
            | some h =>
              rw [hsp] at he
              dsimp only at he
              have h1 := mem_enqueue_candidates _ _ _ _ _ he
              rcases mem_rank_internal_links _ _ _ _ h1 with hh | hh
              · exact Or.inl hh
              · cases hh
          | true =>
            generalize hy : is_year_page_candidate url = cY at he
            cases cY with
            | true =>
              rw [if_pos ⟨rfl, rfl⟩] at he
              simp [emptyTrace] at he
            | false =>
              rw [if_neg (by simp), if_pos rfl] at he
              dsimp only at he
              unfold selenium_enq at he
              have h1 := mem_enqueue_candidates _ _ _ _ _ he
              exact mem_selenium_cands oracle base_domain url e.1 h1

/-- Witness for C7's amended theorem at the relative-iframe input: the
enqueued entry's domain is the empty one. -/
theorem cross_domain_amended_witness :
    domain_of "atas-comite.html" = "rpps.sc.gov.br" ∨ domain_of "atas-comite.html" = "" := by
  exact cross_domain_amended true
    ⟨fun _ => none,
     fun _ => ⟨[⟨"atas-comite.html", "atas do comite de investimentos"⟩], [], []⟩,
     fun _ => ["frame.html"], fun _ => [], fun _ => [], fun _ => none⟩
    "rpps.sc.gov.br" 3
    ⟨[("https://rpps.sc.gov.br/", 0)], [], [], false⟩
    ("atas-comite.html", 1)
    (by decide)

/-! # C6: per-host request concurrency of the parallel engine -/

/-- C6: the worker closure `download_one` issues its `requests.get`
with no semaphore around it — `_get_domain_semaphore` is defined in the
module (with `DOMAIN_LIMIT = 2`) but never called — so the pool allows
schedules in which three requests to one host are simultaneously in
flight.  With three same-host links and the default pool size, the
schedule start/start/start/finish/finish/finish is well-formed and its
third prefix has 3 > `DOMAIN_LIMIT` in-flight requests to that host. -/
theorem per_host_limit_violated :
    wellFormedSchedule DEFAULT_POOL_WORKERS
        (["https://ipresbs.sc.gov.br/a.pdf", "https://ipresbs.sc.gov.br/b.pdf",
          "https://ipresbs.sc.gov.br/c.pdf"].map domain_of)
        [.start 0, .start 1, .start 2, .finish 0, .finish 1, .finish 2] = true
    ∧ inFlightToHost
        (["https://ipresbs.sc.gov.br/a.pdf", "https://ipresbs.sc.gov.br/b.pdf",
          "https://ipresbs.sc.gov.br/c.pdf"].map domain_of)
        (([.start 0, .start 1, .start 2, .finish 0, .finish 1, .finish 2] :
          List DlEvent).take 3)
        "ipresbs.sc.gov.br" = 3
    ∧ DOMAIN_LIMIT < 3 := by
  refine ⟨by decide, by decide, by decide⟩

/-! # C10: the hash is recorded before the write and persists -/

/-- C10: in both download paths the content hash enters the shared
seen-set before the write is attempted: a failed write leaves no new
file and no result but keeps the hash recorded; any later attempt at
content with a seen hash is skipped with no write and no result; and
the run keeps every recorded hash in the state it persists to the
on-disk index at run end. -/
theorem hash_recorded_before_write (hashFn : HashFn) (writeOk : String → Bool)
    (http : String → Option DlResponse) :
    (∀ (url : String) (st : DlState) (resp : DlResponse),
      http url = some resp → resp.ok = true → resp.content ≠ [] →
      hashFn resp.content ∉ st.seen →
      writeOk (dl_filename hashFn resp.content) = false →
      download_one hashFn writeOk http url st
        = { st with seen := st.seen ++ [hashFn resp.content] })
    ∧ (∀ (now : Nat) (resp : BinResponse) (url : String) (st : BinState),
      is_probably_meeting_document (bin_final_name resp) = true →
      hashFn resp.content ∉ st.seen →
      writeOk (bin_dest resp st now) = false →
      download_binary_response hashFn writeOk now resp url st
        = (none, { st with seen := st.seen ++ [hashFn resp.content] }))
    ∧ (∀ (url : String) (st : DlState) (resp : DlResponse),
      http url = some resp → hashFn resp.content ∈ st.seen →
      download_one hashFn writeOk http url st = st)
    ∧ (∀ (now : Nat) (resp : BinResponse) (url : String) (st : BinState),
      hashFn resp.content ∈ st.seen →
      download_binary_response hashFn writeOk now resp url st = (none, st))
    ∧ (∀ (links : List String) (st : DlState) (h : String),
      h ∈ st.seen → h ∈ (dl_run_go hashFn writeOk http links st).seen) := by
  refine ⟨?_, ?_, ?_, ?_, ?_⟩
  · intro url st resp hr hok hne hfresh hwf
    unfold download_one
    rw [hr]
    dsimp only
    rw [if_neg (by simp [hok, hne]),
      if_neg (by simpa [List.elem_iff] using hfresh),
      if_neg (by simp [hwf])]
  · intro now resp url st hipmd hfresh hwf
    unfold download_binary_response
    rw [if_neg (by simp [hipmd]),
      if_neg (by simpa [List.elem_iff] using hfresh),
      if_neg (by simp [hwf])]
  · intro url st resp hr hmem
    unfold download_one
    rw [hr]
    dsimp only
    split
    · rfl
    · rw [if_pos (by simpa [List.elem_iff] using hmem)]
  · intro now resp url st hmem
    unfold download_binary_response
    generalize is_probably_meeting_document (bin_final_name resp) = cI
    cases cI with
    | false => rw [if_pos (by simp)]
    | true =>
      rw [if_neg (by simp)]
      rw [if_pos (by simpa [List.elem_iff] using hmem)]
  · intro links st h hmem
    exact dl_run_go_seen_mono hashFn writeOk http links st h hmem

/-- Witness for C10 at a concrete input: with a failing writer, the
hash is recorded in both paths while nothing is written or returned. -/
theorem hash_recorded_before_write_witness :
    download_one (fun _ => "HHHH") (fun _ => false) (fun _ => some ⟨true, [7]⟩) "u"
        ⟨[], [], []⟩
      = { results := [], seen := ["HHHH"], fs := [] }
    ∧ download_binary_response (fun _ => "HHHH") (fun _ => false) 0
        ⟨some "ata.pdf", "/x/ata.pdf", "application/pdf", [7]⟩ "u" ⟨[], []⟩
      = (none, { seen := ["HHHH"], fs := [] }) := by
  constructor
  · exact (hash_recorded_before_write (fun _ => "HHHH") (fun _ => false)
      (fun _ => some ⟨true, [7]⟩)).1 "u" ⟨[], [], []⟩ ⟨true, [7]⟩ rfl rfl (by decide)
      (by decide) rfl
  · exact (hash_recorded_before_write (fun _ => "HHHH") (fun _ => false)
      (fun _ => some ⟨true, [7]⟩)).2.1 0
      ⟨some "ata.pdf", "/x/ata.pdf", "application/pdf", [7]⟩ "u" ⟨[], []⟩
      (by decide) (by decide) rfl

/-! # C1: content-hash dedup under the parallel engine -/

/-- C1: the dedup invariant fails under the engine's real concurrency.
Two distinct URLs return the byte-identical body `[1]`; under the
interleaving in which both workers run their (unlocked) membership
test before either inserts, both insert, both write and both return a
result dict, the run ends with two DownloadResults for byte-identical
content — while the serial schedule of the very same input yields one.
(Only one file exists on disk either way, since both writes target the
same `doc_<hash[:12]>.pdf` name.)  The claim's invariant is the spec's
stated intent (§5 requires a mutex around exactly this check-and-insert,
and the sequential paths do hold `seen_hashes_lock`), so this is a bug
in `download_one`, which takes no lock. -/
theorem parallel_dedup_race_two_results :
    racy_results (racy_run (fun c => if c = [1] then "AAAA" else "BBBB") (fun _ => true)
        (fun u => if u = "https://rpps.sc.gov.br/ata1.pdf"
            ∨ u = "https://rpps.sc.gov.br/ata2.pdf" then some ⟨true, [1]⟩ else none)
        [0, 1, 0, 1, 0, 1, 0, 1, 0, 1]
        (racy_init ["https://rpps.sc.gov.br/ata1.pdf", "https://rpps.sc.gov.br/ata2.pdf"] []))
      = [⟨"doc_AAAA.pdf", "https://rpps.sc.gov.br/ata1.pdf"⟩,
         ⟨"doc_AAAA.pdf", "https://rpps.sc.gov.br/ata2.pdf"⟩]
    ∧ ((racy_run (fun c => if c = [1] then "AAAA" else "BBBB") (fun _ => true)
        (fun u => if u = "https://rpps.sc.gov.br/ata1.pdf"
            ∨ u = "https://rpps.sc.gov.br/ata2.pdf" then some ⟨true, [1]⟩ else none)
        [0, 1, 0, 1, 0, 1, 0, 1, 0, 1]
        (racy_init ["https://rpps.sc.gov.br/ata1.pdf", "https://rpps.sc.gov.br/ata2.pdf"] [])).fs.filter
          (fun p => p.2 = [1])).length = 1
    ∧ racy_results (racy_run (fun c => if c = [1] then "AAAA" else "BBBB") (fun _ => true)
        (fun u => if u = "https://rpps.sc.gov.br/ata1.pdf"
            ∨ u = "https://rpps.sc.gov.br/ata2.pdf" then some ⟨true, [1]⟩ else none)
        [0, 0, 0, 0, 0, 1, 1, 1, 1, 1]
        (racy_init ["https://rpps.sc.gov.br/ata1.pdf", "https://rpps.sc.gov.br/ata2.pdf"] []))
      = [⟨"doc_AAAA.pdf", "https://rpps.sc.gov.br/ata1.pdf"⟩] := by
  refine ⟨by decide, by decide, by decide⟩

end RPPS
